import Mathlib

/-!
Verification of the flatten-and-reconcile engine of the jirapull repository.

The embedding models the Python sources at the interface boundary stated by the
spec: the relational store is a list of rows holding exactly the serialized
values written to it, and a lookup returns the stored value verbatim.  Jira
field trees are modelled as a recursive JSON type; numbers are integers (the
behaviour under verification never depends on float formatting).
-/

namespace JiraPull

/-- Nested JSON field trees as fetched from the Jira API (the contents of
`issue.raw['fields']`): objects (insertion-ordered key/value lists, as Python
dicts iterate), arrays, strings, integer numbers, booleans and null. -/
inductive Json where
  | obj  : List (String × Json) → Json
  | arr  : List Json → Json
  | str  : String → Json
  | num  : Int → Json
  | bool : Bool → Json
  | null : Json

/-- JSON string escaping as performed by `json.dumps` for the characters that
require escaping in the inputs considered here. -/
def escapeChar (c : Char) : String :=
  if c = '"' then "\\\"" else if c = '\\' then "\\\\" else String.singleton c

/-- Canonical serialization of a JSON string literal. -/
def dumpsString (s : String) : String :=
  "\"" ++ String.join (s.data.map escapeChar) ++ "\""

/-- `json.dumps` on a scalar or null leaf.  jira_fields.py passes every leaf,
null included, through `json.dumps`; the object and array branches are never
reached because both flattening variants recurse into dicts and lists before
serializing. -/
def dumps : Json → String
  | .str s  => dumpsString s
  | .num n  => toString n
  | .bool b => if b then "true" else "false"
  | .null   => "null"
  | .obj _  => ""
  | .arr _  => ""

/-- jira_fields_3.py leaf serialization:
`json.dumps(data) if data is not None else None`. -/
def dumpsOpt (d : Json) : Option String :=
  match d with
  | .null => none
  | d => some (dumps d)

/-- Path extension for object keys:
`new_key = f"{parent_key}_{key}" if parent_key else key`. -/
def joinKey (parent_key key : String) : String :=
  if parent_key = "" then key else parent_key ++ "_" ++ key

/-- One row of the `jira_fields_2` table.  `field_value` is the JSONB column;
`none` models SQL NULL. -/
structure Row where
  issue_key   : String
  field_id    : String
  field_name  : String
  field_value : Option String
deriving DecidableEq, Repr

/-- The `jira_fields_2` table contents. Its primary key is
`(issue_key, field_id)`. -/
abbrev Store := List Row

/-- The WHERE clause `issue_key = %s AND field_id = %s`. -/
def rowMatches (issue_key field_id : String) (r : Row) : Bool :=
  r.issue_key = issue_key && r.field_id = field_id

/-- `field_name.lower().replace(' ', '_')` as the character-wise map it
amounts to: the pattern is the single character space, so replacing it after
lower-casing is lower-casing every character and turning spaces into
underscores. -/
def normalizePath (field_name : String) : String :=
  String.mk (field_name.data.map (fun c => if c = ' ' then '_' else c.toLower))

/-- `transform_field_name`: `f"mss_{field_name.lower().replace(' ', '_')}"` —
replace spaces with underscores, lower-case, and prepend the fixed token
`mss_`. -/
def transform_field_name (field_name : String) : String :=
  "mss_" ++ normalizePath field_name

/-- `SELECT field_value FROM jira_fields_2 WHERE issue_key = %s AND
field_id = %s` followed by `fetchone()`: `none` when no row exists,
`some v` when a row with stored value `v` exists. -/
def lookupCell (s : Store) (issue_key field_id : String) : Option (Option String) :=
  (s.find? (rowMatches issue_key field_id)).map Row.field_value

/-- The change decision taken for one `(issue_key, field_id)` cell. -/
inductive Decision where
  | insert | update | skip
deriving DecidableEq, Repr

namespace JiraFields3

/-- `check_and_update_field` of jira_fields_3.py: look the cell up; if a row
exists and its value differs, UPDATE the `field_value` of the matching rows;
if it exists with an equal value, do nothing; otherwise INSERT a new row whose
`field_name` is derived from the `field_id`.  The returned `Decision` records
which branch ran. -/
def check_and_update_field (s : Store) (issue_key field_id : String)
    (new_field_value : Option String) : Store × Decision :=
  match s.find? (rowMatches issue_key field_id) with
  | some r =>
      if r.field_value ≠ new_field_value then
        (s.map (fun r2 => if rowMatches issue_key field_id r2 then
                  { r2 with field_value := new_field_value } else r2),
         Decision.update)
      else
        (s, Decision.skip)
  | none =>
      (s ++ [{ issue_key := issue_key, field_id := field_id,
               field_name := transform_field_name field_id,
               field_value := new_field_value }],
       Decision.insert)

/-- `create_jira_fields_table` of jira_fields_3.py:
`CREATE TABLE IF NOT EXISTS jira_fields_2 (...)`.  The provisioned database is
`none` when the table is absent and `some s` when it exists with rows `s`. -/
def create_jira_fields_table (db : Option Store) : Option Store :=
  match db with
  | none => some []
  | some s => some s

mutual

/-- `flatten_json_and_insert` of jira_fields_3.py: depth-first walk of the
field tree.  Dict children extend the accumulated key through `joinKey`, list
children append `_index` (zero-based, no emptiness check on the parent key),
and every other value is serialized and handed to `check_and_update_field`.
The store is threaded through the walk and the decisions taken are collected
in order. -/
def flatten_json_and_insert (issue_key : String) (data : Json) (parent_key : String)
    (acc : Store × List Decision) : Store × List Decision :=
  match data with
  | .obj kvs => flattenObjGo issue_key kvs parent_key acc
  | .arr items => flattenArrGo issue_key items parent_key 0 acc
  | d =>
      let out := check_and_update_field acc.1 issue_key parent_key (dumpsOpt d)
      (out.1, acc.2 ++ [out.2])

/-- The `for key, value in data.items()` loop of `flatten_json_and_insert`. -/
def flattenObjGo (issue_key : String) (kvs : List (String × Json)) (parent_key : String)
    (acc : Store × List Decision) : Store × List Decision :=
  match kvs with
  | [] => acc
  | (key, value) :: rest =>
      flattenObjGo issue_key rest parent_key
        (flatten_json_and_insert issue_key value (joinKey parent_key key) acc)

/-- The `for i, item in enumerate(data)` loop of `flatten_json_and_insert`. -/
def flattenArrGo (issue_key : String) (items : List Json) (parent_key : String)
    (i : Nat) (acc : Store × List Decision) : Store × List Decision :=
  match items with
  | [] => acc
  | item :: rest =>
      flattenArrGo issue_key rest parent_key (i + 1)
        (flatten_json_and_insert issue_key item (parent_key ++ "_" ++ toString i) acc)

end

end JiraFields3

mutual

/-- The pure flattening a walk of `flatten_json_and_insert` performs: the
ordered `(leafPath, serializedValue)` pairs passed on to the per-cell
reconciliation. -/
def flattenPairs (data : Json) (parent_key : String) : List (String × Option String) :=
  match data with
  | .obj kvs => flattenPairsObj kvs parent_key
  | .arr items => flattenPairsArr items parent_key 0
  | d => [(parent_key, dumpsOpt d)]

/-- Pairs contributed by the children of a dict node, in iteration order. -/
def flattenPairsObj (kvs : List (String × Json)) (parent_key : String) :
    List (String × Option String) :=
  match kvs with
  | [] => []
  | (key, value) :: rest =>
      flattenPairs value (joinKey parent_key key) ++ flattenPairsObj rest parent_key

/-- Pairs contributed by the children of a list node, indexed from `i`. -/
def flattenPairsArr (items : List Json) (parent_key : String) (i : Nat) :
    List (String × Option String) :=
  match items with
  | [] => []
  | item :: rest =>
      flattenPairs item (parent_key ++ "_" ++ toString i) ++
        flattenPairsArr rest parent_key (i + 1)

end

namespace JiraFields3

/-- Folding `check_and_update_field` over an explicit list of flattened
`(leafPath, value)` pairs, in order. -/
def reconcilePairs (issue_key : String) (pairs : List (String × Option String))
    (acc : Store × List Decision) : Store × List Decision :=
  match pairs with
  | [] => acc
  | (p, v) :: rest =>
      let out := check_and_update_field acc.1 issue_key p v
      reconcilePairs issue_key rest (out.1, acc.2 ++ [out.2])

/-- Reconciling one record, as the main loop of jira_fields_3.py does:
`flatten_json_and_insert(issue_key, issue_fields, parent_key='', cur=cur)`
starting from store `st`. -/
def reconcile (issue_key : String) (fields : Json) (st : Store) : Store × List Decision :=
  flatten_json_and_insert issue_key fields "" (st, [])

end JiraFields3

namespace JiraFields

/-- `INSERT INTO jira_fields_2 (issue_key, field_id, field_name, field_value)`:
raises `psycopg2.errors.UniqueViolation` (modelled as `Except.error ()`) when a
row with the same primary key `(issue_key, field_id)` already exists. -/
def insertRow (s : Store) (r : Row) : Except Unit Store :=
  if s.any (rowMatches r.issue_key r.field_id) then Except.error ()
  else Except.ok (s ++ [r])

mutual

/-- `flatten_json_and_insert` of jira_fields.py.  Recursive calls for dict and
list children omit the `counter` argument, which therefore takes its default
value 0.  A leaf is inserted directly; on UniqueViolation the insert is retried
once with `field_id = f"{parent_key}_{counter}"` (the `field_name` still
derived from the un-suffixed `parent_key`), and a failure of that retry is not
caught.  Every leaf, null included, goes through `json.dumps`. -/
def flatten_json_and_insert (issue_key : String) (data : Json) (parent_key : String)
    (counter : Nat) (s : Store) : Except Unit Store :=
  match data with
  | .obj kvs => objLoop issue_key kvs parent_key s
  | .arr items => arrLoop issue_key items parent_key 0 s
  | d =>
      let row : Row := { issue_key := issue_key, field_id := parent_key,
                         field_name := transform_field_name parent_key,
                         field_value := some (dumps d) }
      match insertRow s row with
      | Except.ok s2 => Except.ok s2
      | Except.error _ =>
          insertRow s { row with field_id := parent_key ++ "_" ++ toString counter }

/-- The `for key, value in data.items()` loop: the recursive call is
`flatten_json_and_insert(issue_key, value, new_key)` with no counter. -/
def objLoop (issue_key : String) (kvs : List (String × Json)) (parent_key : String)
    (s : Store) : Except Unit Store :=
  match kvs with
  | [] => Except.ok s
  | (key, value) :: rest =>
      match flatten_json_and_insert issue_key value (joinKey parent_key key) 0 s with
      | Except.ok s2 => objLoop issue_key rest parent_key s2
      | Except.error e => Except.error e

/-- The `for i, item in enumerate(data)` loop: the recursive call is
`flatten_json_and_insert(issue_key, item, new_key)` with no counter. -/
def arrLoop (issue_key : String) (items : List Json) (parent_key : String) (i : Nat)
    (s : Store) : Except Unit Store :=
  match items with
  | [] => Except.ok s
  | item :: rest =>
      match flatten_json_and_insert issue_key item (parent_key ++ "_" ++ toString i) 0 s with
      | Except.ok s2 => arrLoop issue_key rest parent_key (i + 1) s2
      | Except.error e => Except.error e

end

end JiraFields

/-- The pagination loop state of `fetch_all_issues` (both variants):
`issues = []`, `start_at = 0`, `total_issues = 1` before the loop.  Issues are
abstract strings. -/
structure FetchState where
  issues : List String
  start_at : Nat
  total_issues : Nat
deriving DecidableEq, Repr

/-- Loop entry state: `issues = []; start_at = 0; total_issues = 1`. -/
def fetchInit : FetchState := { issues := [], start_at := 0, total_issues := 1 }

/-- One iteration of the `while start_at < total_issues` body against a page
source: `batch = jira.search_issues(jql, startAt=start_at, maxResults=...)`,
`issues.extend(batch)`, `total_issues = batch.total`,
`start_at += len(batch)`.  `page offset = (records, reportedTotal)`. -/
def fetchStep (page : Nat → List String × Nat) (st : FetchState) : FetchState :=
  { issues := st.issues ++ (page st.start_at).1,
    start_at := st.start_at + (page st.start_at).1.length,
    total_issues := (page st.start_at).2 }

/-- The loop after `n` iterations: the body runs only while
`start_at < total_issues` still holds, exactly as the `while` guard does. -/
def fetch_all_issues_iter (page : Nat → List String × Nat) : Nat → FetchState
  | 0 => fetchInit
  | n + 1 =>
      let st := fetch_all_issues_iter page n
      if st.start_at < st.total_issues then fetchStep page st else st

/-- A stale page source: every request returns zero records while reporting a
total of 5 issues. -/
def stalePage : Nat → List String × Nat := fun _ => ([], 5)

namespace JiraFields3

theorem reconcilePairs_append (issue_key : String)
    (l1 l2 : List (String × Option String)) (acc : Store × List Decision) :
    reconcilePairs issue_key (l1 ++ l2) acc =
      reconcilePairs issue_key l2 (reconcilePairs issue_key l1 acc) := by
  induction l1 generalizing acc with
  | nil => rfl
  | cons hd tl ih => cases hd; simp [reconcilePairs, ih]

mutual

/-- The interleaved walk of jira_fields_3.py equals flattening to a pair list
first and then folding the per-cell reconciliation over it. -/
theorem flatten_eq_reconcilePairs (issue_key : String) (data : Json) (parent_key : String)
    (acc : Store × List Decision) :
    flatten_json_and_insert issue_key data parent_key acc =
      reconcilePairs issue_key (flattenPairs data parent_key) acc :=
  match data with
  | .obj kvs => by
      simpa [flatten_json_and_insert, flattenPairs] using
        flattenObjGo_eq issue_key kvs parent_key acc
  | .arr items => by
      simpa [flatten_json_and_insert, flattenPairs] using
        flattenArrGo_eq issue_key items parent_key 0 acc
  | .str s => by simp [flatten_json_and_insert, flattenPairs, reconcilePairs]
  | .num n => by simp [flatten_json_and_insert, flattenPairs, reconcilePairs]
  | .bool b => by simp [flatten_json_and_insert, flattenPairs, reconcilePairs]
  | .null => by simp [flatten_json_and_insert, flattenPairs, reconcilePairs]

theorem flattenObjGo_eq (issue_key : String) (kvs : List (String × Json))
    (parent_key : String) (acc : Store × List Decision) :
    flattenObjGo issue_key kvs parent_key acc =
      reconcilePairs issue_key (flattenPairsObj kvs parent_key) acc :=
  match kvs with
  | [] => rfl
  | (key, value) :: rest => by
      rw [flattenObjGo, flattenPairsObj, reconcilePairs_append,
        ← flatten_eq_reconcilePairs issue_key value (joinKey parent_key key) acc,
        ← flattenObjGo_eq issue_key rest parent_key]

theorem flattenArrGo_eq (issue_key : String) (items : List Json)
    (parent_key : String) (i : Nat) (acc : Store × List Decision) :
    flattenArrGo issue_key items parent_key i acc =
      reconcilePairs issue_key (flattenPairsArr items parent_key i) acc :=
  match items with
  | [] => rfl
  | item :: rest => by
      rw [flattenArrGo, flattenPairsArr, reconcilePairs_append,
        ← flatten_eq_reconcilePairs issue_key item (parent_key ++ "_" ++ toString i) acc,
        ← flattenArrGo_eq issue_key rest parent_key (i + 1)]

end

theorem rowMatches_iff (k fid : String) (r : Row) :
    rowMatches k fid r = true ↔ (r.issue_key = k ∧ r.field_id = fid) := by
  simp [rowMatches]

/-- Overwriting `field_value` does not change which rows a WHERE clause on
`(issue_key, field_id)` matches. -/
theorem rowMatches_setValue (issue_key field_id k2 fid2 : String) (v : Option String)
    (r : Row) :
    rowMatches k2 fid2 (if rowMatches issue_key field_id r then
        { r with field_value := v } else r) = rowMatches k2 fid2 r := by
  by_cases h : rowMatches issue_key field_id r = true
  · rw [if_pos h]; rfl
  · rw [if_neg h]

/-- After `check_and_update_field` runs for a cell, that cell's stored value is
the incoming value, whichever branch ran. -/
theorem lookupCell_check_self (s : Store) (issue_key field_id : String) (v : Option String) :
    lookupCell (check_and_update_field s issue_key field_id v).1 issue_key field_id =
      some v := by
  cases hf : s.find? (rowMatches issue_key field_id) with
  | none =>
      simp [check_and_update_field, hf, lookupCell, List.find?_append, rowMatches]
  | some r =>
      by_cases hv : r.field_value = v
      · simp [check_and_update_field, hf, hv, lookupCell]
      · simp only [check_and_update_field, hf, ne_eq, hv, not_false_eq_true, if_true,
          lookupCell]
        rw [List.find?_map]
        have hcomp : (rowMatches issue_key field_id ∘ fun r2 =>
            if rowMatches issue_key field_id r2 then { r2 with field_value := v } else r2) =
            rowMatches issue_key field_id := by
          funext r2
          simpa [Function.comp] using rowMatches_setValue issue_key field_id issue_key field_id v r2
        rw [hcomp, hf]
        have hr : rowMatches issue_key field_id r = true := List.find?_some hf
        simp [hr]

/-- `check_and_update_field` for one cell leaves every other cell's lookup
unchanged. -/
theorem lookupCell_check_frame (s : Store) (issue_key field_id k2 fid2 : String)
    (v : Option String) (h : ¬(k2 = issue_key ∧ fid2 = field_id)) :
    lookupCell (check_and_update_field s issue_key field_id v).1 k2 fid2 =
      lookupCell s k2 fid2 := by
  cases hf : s.find? (rowMatches issue_key field_id) with
  | none =>
      have hnew : rowMatches k2 fid2
          { issue_key := issue_key, field_id := field_id,
            field_name := transform_field_name field_id, field_value := v } = false := by
        rw [not_and_or] at h
        rcases h with h | h <;> simp [rowMatches] <;> intro hk
        · exact absurd hk.symm h
        · intro hfid; exact absurd hfid.symm h
      simp [check_and_update_field, hf, lookupCell, List.find?_append, hnew]
  | some r =>
      by_cases hv : r.field_value = v
      · simp [check_and_update_field, hf, hv]
      · simp only [check_and_update_field, hf, ne_eq, hv, not_false_eq_true, if_true,
          lookupCell]
        rw [List.find?_map]
        have hcomp : (rowMatches k2 fid2 ∘ fun r2 =>
            if rowMatches issue_key field_id r2 then { r2 with field_value := v } else r2) =
            rowMatches k2 fid2 := by
          funext r2
          simpa [Function.comp] using rowMatches_setValue issue_key field_id k2 fid2 v r2
        rw [hcomp]
        cases hf2 : s.find? (rowMatches k2 fid2) with
        | none => simp
        | some r2 =>
            have hr2 : rowMatches k2 fid2 r2 = true := List.find?_some hf2
            have hne : rowMatches issue_key field_id r2 = false := by
              rcases (rowMatches_iff k2 fid2 r2).1 hr2 with ⟨e1, e2⟩
              rw [Bool.eq_false_iff]
              intro hcon
              rcases (rowMatches_iff issue_key field_id r2).1 hcon with ⟨e3, e4⟩
              exact h ⟨e1 ▸ e3.symm ▸ rfl, by rw [← e2, e4]⟩
            simp [hne]

/-- When the stored value already equals the incoming value, the branch taken
is Skip and the store is untouched. -/
theorem check_skip_of_lookup_eq (s : Store) (issue_key field_id : String)
    (v : Option String) (h : lookupCell s issue_key field_id = some v) :
    check_and_update_field s issue_key field_id v = (s, Decision.skip) := by
  unfold lookupCell at h
  rw [Option.map_eq_some'] at h
  rcases h with ⟨r, hf, hv⟩
  simp [check_and_update_field, hf, hv]

/-- When no row exists for the cell, the branch taken is Insert and the new row
is appended verbatim. -/
theorem check_insert_of_lookup_none (s : Store) (issue_key field_id : String)
    (v : Option String) (h : lookupCell s issue_key field_id = none) :
    check_and_update_field s issue_key field_id v =
      (s ++ [{ issue_key := issue_key, field_id := field_id,
               field_name := transform_field_name field_id, field_value := v }],
       Decision.insert) := by
  unfold lookupCell at h
  rw [Option.map_eq_none'] at h
  simp [check_and_update_field, h]

/-- When a row exists with a different stored value, the branch taken is
Update. -/
theorem check_update_of_lookup_ne (s : Store) (issue_key field_id : String)
    (v w : Option String) (h : lookupCell s issue_key field_id = some w) (hne : w ≠ v) :
    (check_and_update_field s issue_key field_id v).2 = Decision.update := by
  unfold lookupCell at h
  rw [Option.map_eq_some'] at h
  rcases h with ⟨r, hf, hv⟩
  simp [check_and_update_field, hf, hv, hne]

/-- Reconciling a list of pairs leaves the lookup of any path not named in the
list unchanged. -/
theorem reconcilePairs_frame (issue_key : String)
    (pairs : List (String × Option String)) (acc : Store × List Decision) (p : String)
    (h : p ∉ pairs.map Prod.fst) :
    lookupCell (reconcilePairs issue_key pairs acc).1 issue_key p =
      lookupCell acc.1 issue_key p := by
  induction pairs generalizing acc with
  | nil => rfl
  | cons hd tl ih =>
      obtain ⟨q, w⟩ := hd
      simp only [List.map_cons, List.mem_cons, not_or] at h
      rw [reconcilePairs]
      rw [ih _ h.2]
      exact lookupCell_check_frame acc.1 issue_key q issue_key p w
        (fun hc => h.1 hc.2)

/-- Reconciling never deletes a row: a path whose lookup succeeds keeps
succeeding. -/
theorem reconcilePairs_mono (issue_key : String)
    (pairs : List (String × Option String)) (acc : Store × List Decision) (p : String)
    (h : lookupCell acc.1 issue_key p ≠ none) :
    lookupCell (reconcilePairs issue_key pairs acc).1 issue_key p ≠ none := by
  induction pairs generalizing acc with
  | nil => exact h
  | cons hd tl ih =>
      obtain ⟨q, w⟩ := hd
      rw [reconcilePairs]
      apply ih
      by_cases hpq : p = q
      · subst hpq
        rw [lookupCell_check_self]
        exact Option.noConfusion
      · rw [lookupCell_check_frame acc.1 issue_key q issue_key p w
          (fun hc => hpq hc.2)]
        exact h

/-- Every flattened pair leaves a row behind: after reconciling, the pair's
path has a stored cell. -/
theorem reconcilePairs_mem_ne_none (issue_key : String)
    (pairs : List (String × Option String)) (acc : Store × List Decision)
    (p : String) (v : Option String) (h : (p, v) ∈ pairs) :
    lookupCell (reconcilePairs issue_key pairs acc).1 issue_key p ≠ none := by
  induction pairs generalizing acc with
  | nil => cases h
  | cons hd tl ih =>
      obtain ⟨q, w⟩ := hd
      rw [reconcilePairs]
      rcases List.mem_cons.1 h with heq | hmem
      · injection heq with h1 h2
        subst h1; subst h2
        apply reconcilePairs_mono
        rw [lookupCell_check_self]
        exact Option.noConfusion
      · exact ih _ hmem

/-- With pairwise-distinct paths, reconciling stores each pair's value: the
final lookup of each path returns exactly the value flattened for it. -/
theorem reconcilePairs_lookup_of_nodup (issue_key : String)
    (pairs : List (String × Option String)) (acc : Store × List Decision)
    (p : String) (v : Option String)
    (hnd : (pairs.map Prod.fst).Nodup) (h : (p, v) ∈ pairs) :
    lookupCell (reconcilePairs issue_key pairs acc).1 issue_key p = some v := by
  induction pairs generalizing acc with
  | nil => cases h
  | cons hd tl ih =>
      obtain ⟨q, w⟩ := hd
      simp only [List.map_cons, List.nodup_cons] at hnd
      rw [reconcilePairs]
      rcases List.mem_cons.1 h with heq | hmem
      · injection heq with h1 h2
        subst h1; subst h2
        rw [reconcilePairs_frame issue_key tl _ p hnd.1]
        exact lookupCell_check_self acc.1 issue_key p v
      · exact ih _ hnd.2 hmem

/-- When every pair's value is already stored, reconciling is pure Skip: the
store is untouched and every decision is Skip. -/
theorem reconcilePairs_all_skip (issue_key : String)
    (pairs : List (String × Option String)) (acc : Store × List Decision)
    (h : ∀ pv ∈ pairs, lookupCell acc.1 issue_key pv.1 = some pv.2) :
    reconcilePairs issue_key pairs acc =
      (acc.1, acc.2 ++ pairs.map (fun _ => Decision.skip)) := by
  induction pairs generalizing acc with
  | nil => simp [reconcilePairs]
  | cons hd tl ih =>
      obtain ⟨q, w⟩ := hd
      have hq : lookupCell acc.1 issue_key q = some w := h (q, w) (List.mem_cons_self ..)
      rw [reconcilePairs]
      rw [check_skip_of_lookup_eq acc.1 issue_key q w hq]
      rw [ih ((acc.1, acc.2 ++ [Decision.skip])) (fun pv hpv => h pv (List.mem_cons_of_mem _ hpv))]
      simp

end JiraFields3

mutual

/-- Every emitted leaf path extends the accumulated parent path. -/
theorem flattenPairs_ext (t : Json) (p q : String) (v : Option String)
    (h : (q, v) ∈ flattenPairs t p) : ∃ r, q.data = p.data ++ r :=
  match t with
  | .obj kvs => flattenPairsObj_ext kvs p q v (by simpa [flattenPairs] using h)
  | .arr items => by
      rcases flattenPairsArr_ext items p 0 q v (by simpa [flattenPairs] using h) with ⟨r, hr⟩
      exact ⟨'_' :: r, hr⟩
  | .str s => by
      simp only [flattenPairs, List.mem_singleton, Prod.mk.injEq] at h
      exact ⟨[], by simp [h.1]⟩
  | .num n => by
      simp only [flattenPairs, List.mem_singleton, Prod.mk.injEq] at h
      exact ⟨[], by simp [h.1]⟩
  | .bool b => by
      simp only [flattenPairs, List.mem_singleton, Prod.mk.injEq] at h
      exact ⟨[], by simp [h.1]⟩
  | .null => by
      simp only [flattenPairs, List.mem_singleton, Prod.mk.injEq] at h
      exact ⟨[], by simp [h.1]⟩

/-- Paths emitted under a dict node extend the accumulated parent path. -/
theorem flattenPairsObj_ext (kvs : List (String × Json)) (p q : String)
    (v : Option String) (h : (q, v) ∈ flattenPairsObj kvs p) :
    ∃ r, q.data = p.data ++ r :=
  match kvs with
  | [] => by simp [flattenPairsObj] at h
  | (key, value) :: rest => by
      rw [flattenPairsObj] at h
      rcases List.mem_append.1 h with hl | hr
      · rcases flattenPairs_ext value (joinKey p key) q v hl with ⟨r, hq⟩
        by_cases hp : p = ""
        · subst hp
          exact ⟨q.data, by simp⟩
        · rw [joinKey, if_neg hp] at hq
          refine ⟨'_' :: key.data ++ r, ?_⟩
          simpa [String.data_append, List.append_assoc] using hq
      · exact flattenPairsObj_ext rest p q v hr

/-- Paths emitted under a list node extend the accumulated parent path with a
leading separator. -/
theorem flattenPairsArr_ext (items : List Json) (p : String) (i : Nat) (q : String)
    (v : Option String) (h : (q, v) ∈ flattenPairsArr items p i) :
    ∃ r, q.data = p.data ++ '_' :: r :=
  match items with
  | [] => by simp [flattenPairsArr] at h
  | item :: rest => by
      rw [flattenPairsArr] at h
      rcases List.mem_append.1 h with hl | hr
      · rcases flattenPairs_ext item (p ++ "_" ++ toString i) q v hl with ⟨r, hq⟩
        refine ⟨(toString i).data ++ r, ?_⟩
        simpa [String.data_append, List.append_assoc] using hq
      · exact flattenPairsArr_ext rest p (i + 1) q v hr

end

namespace JiraFields3

/-- C2: the change decision for `(recordKey, leafPath, incomingValue)` is a
three-way function of the stored state: no stored cell for the key pair gives
Insert and appends exactly the new row; a stored cell holding an equal value
gives Skip and leaves the store untouched; a stored cell holding a different
value gives Update. -/
theorem check_and_update_field_decision (s : Store) (issue_key field_id : String)
    (v : Option String) :
    (lookupCell s issue_key field_id = none →
      check_and_update_field s issue_key field_id v =
        (s ++ [{ issue_key := issue_key, field_id := field_id,
                 field_name := transform_field_name field_id, field_value := v }],
         Decision.insert)) ∧
    (lookupCell s issue_key field_id = some v →
      check_and_update_field s issue_key field_id v = (s, Decision.skip)) ∧
    (∀ w, lookupCell s issue_key field_id = some w → w ≠ v →
      (check_and_update_field s issue_key field_id v).2 = Decision.update) :=
  ⟨check_insert_of_lookup_none s issue_key field_id v,
   check_skip_of_lookup_eq s issue_key field_id v,
   fun w h hne => check_update_of_lookup_ne s issue_key field_id v w h hne⟩

/-- Witness for C2: the three branches at concrete stores. -/
theorem check_and_update_field_decision_witness :
    check_and_update_field [] "K" "p" (some "1") =
      ([{ issue_key := "K", field_id := "p", field_name := "mss_p",
          field_value := some "1" }], Decision.insert) ∧
    check_and_update_field [⟨"K", "p", "mss_p", some "1"⟩] "K" "p" (some "1") =
      ([⟨"K", "p", "mss_p", some "1"⟩], Decision.skip) ∧
    (check_and_update_field [⟨"K", "p", "mss_p", some "1"⟩] "K" "p" (some "2")).2 =
      Decision.update :=
  ⟨(check_and_update_field_decision [] "K" "p" (some "1")).1 (by decide),
   (check_and_update_field_decision [⟨"K", "p", "mss_p", some "1"⟩] "K" "p"
     (some "1")).2.1 (by decide),
   (check_and_update_field_decision [⟨"K", "p", "mss_p", some "1"⟩] "K" "p"
     (some "2")).2.2 (some "1") (by decide) (by decide)⟩

/-- C1 counterexample: a record whose flattening repeats a leaf path (the dict
key `a_b` collides with the path of `a.b`) is not reconciled idempotently: the
second pass over the unchanged record yields two Update decisions, not all
Skip. -/
theorem reconcile_second_pass_updates_on_duplicate_paths :
    (reconcile "K" (.obj [("a_b", .num 1), ("a", .obj [("b", .num 2)])])
      (reconcile "K" (.obj [("a_b", .num 1), ("a", .obj [("b", .num 2)])]) []).1).2 =
      [Decision.update, Decision.update] := by decide

/-- C1 (amended): for every record whose flattened leaf paths are pairwise
distinct, reconciling the unchanged record a second time yields zero inserts
and zero updates — the store is unchanged and every decision is Skip, because
each stored value equals the incoming serialized value. -/
theorem reconcile_idempotent (issue_key : String) (t : Json) (st : Store)
    (hnd : ((flattenPairs t "").map Prod.fst).Nodup) :
    reconcile issue_key t (reconcile issue_key t st).1 =
      ((reconcile issue_key t st).1,
        (flattenPairs t "").map (fun _ => Decision.skip)) := by
  unfold reconcile
  simp only [flatten_eq_reconcilePairs]
  rw [reconcilePairs_all_skip issue_key (flattenPairs t "")
    ((reconcilePairs issue_key (flattenPairs t "") (st, [])).1, [])
    (fun pv hpv => reconcilePairs_lookup_of_nodup issue_key (flattenPairs t "") (st, [])
      pv.1 pv.2 hnd hpv)]
  simp

/-- Witness for C1 (amended): a concrete distinct-path record reconciled twice
skips everything on the second pass. -/
theorem reconcile_idempotent_witness :
    ((flattenPairs (.obj [("a", .num 1), ("b", .arr [.num 2, .null])]) "").map
      Prod.fst).Nodup ∧
    reconcile "K" (.obj [("a", .num 1), ("b", .arr [.num 2, .null])])
        (reconcile "K" (.obj [("a", .num 1), ("b", .arr [.num 2, .null])]) []).1 =
      ((reconcile "K" (.obj [("a", .num 1), ("b", .arr [.num 2, .null])]) []).1,
        (flattenPairs (.obj [("a", .num 1), ("b", .arr [.num 2, .null])]) "").map
          (fun _ => Decision.skip)) :=
  ⟨by decide,
   reconcile_idempotent "K" (.obj [("a", .num 1), ("b", .arr [.num 2, .null])]) []
     (by decide)⟩

/-- C5: a leaf present with value Null produces a stored row (with stored null
when paths are distinct), while a path never flattened leaves the store's
answer for that path unchanged — so null-valued leaves are distinguishable
from never-seen paths. -/
theorem null_leaf_row_distinguishable (issue_key : String) (t : Json) (st : Store)
    (p : String) :
    ((p, (none : Option String)) ∈ flattenPairs t "" →
      lookupCell (reconcile issue_key t st).1 issue_key p ≠ none) ∧
    (((flattenPairs t "").map Prod.fst).Nodup →
      (p, (none : Option String)) ∈ flattenPairs t "" →
      lookupCell (reconcile issue_key t st).1 issue_key p = some none) ∧
    (p ∉ (flattenPairs t "").map Prod.fst →
      lookupCell (reconcile issue_key t st).1 issue_key p = lookupCell st issue_key p) := by
  unfold reconcile
  simp only [flatten_eq_reconcilePairs]
  exact ⟨fun h => reconcilePairs_mem_ne_none issue_key _ _ p none h,
    fun hnd h => reconcilePairs_lookup_of_nodup issue_key _ _ p none hnd h,
    fun h => reconcilePairs_frame issue_key _ _ p h⟩

/-- Witness for C5: reconciling `{"a": null}` stores a null-valued row for
path `a`, while the never-flattened path `b` still has no row. -/
theorem null_leaf_row_distinguishable_witness :
    lookupCell (reconcile "K" (.obj [("a", .null)]) []).1 "K" "a" = some none ∧
    lookupCell (reconcile "K" (.obj [("a", .null)]) []).1 "K" "b" = none :=
  ⟨(null_leaf_row_distinguishable "K" (.obj [("a", .null)]) [] "a").2.1
     (by decide) (by decide),
   by rw [(null_leaf_row_distinguishable "K" (.obj [("a", .null)]) [] "b").2.2
       (by decide)]; rfl⟩

/-- C6: the derived field name is a pure, deterministic function of the leaf
path alone — the fixed prefix `mss_` followed by the path lower-cased with
spaces replaced by underscores — and the rows inserted for the same leaf path
carry the same field name whatever the record key or value. -/
theorem field_name_pure_function_of_path (s1 s2 : Store) (k1 k2 fid : String)
    (v1 v2 : Option String)
    (h1 : lookupCell s1 k1 fid = none) (h2 : lookupCell s2 k2 fid = none) :
    transform_field_name fid = "mss_" ++ normalizePath fid ∧
    transform_field_name "Story Points" = "mss_story_points" ∧
    check_and_update_field s1 k1 fid v1 =
      (s1 ++ [{ issue_key := k1, field_id := fid,
                field_name := transform_field_name fid, field_value := v1 }],
       Decision.insert) ∧
    check_and_update_field s2 k2 fid v2 =
      (s2 ++ [{ issue_key := k2, field_id := fid,
                field_name := transform_field_name fid, field_value := v2 }],
       Decision.insert) :=
  ⟨rfl, by decide,
   check_insert_of_lookup_none s1 k1 fid v1 h1,
   check_insert_of_lookup_none s2 k2 fid v2 h2⟩

/-- Witness for C6: two inserts for leaf path `Story Points` under different
record keys and different values store the same field name. -/
theorem field_name_pure_function_of_path_witness :
    transform_field_name "Story Points" = "mss_story_points" ∧
    check_and_update_field [] "K1" "Story Points" (some "1") =
      ([{ issue_key := "K1", field_id := "Story Points",
          field_name := "mss_story_points", field_value := some "1" }],
       Decision.insert) ∧
    check_and_update_field [] "K2" "Story Points" (some "2") =
      ([{ issue_key := "K2", field_id := "Story Points",
          field_name := "mss_story_points", field_value := some "2" }],
       Decision.insert) :=
  ⟨(field_name_pure_function_of_path [] [] "K1" "K2" "Story Points"
      (some "1") (some "2") (by decide) (by decide)).2.1,
   (field_name_pure_function_of_path [] [] "K1" "K2" "Story Points"
      (some "1") (some "2") (by decide) (by decide)).2.2.1,
   (field_name_pure_function_of_path [] [] "K1" "K2" "Story Points"
      (some "1") (some "2") (by decide) (by decide)).2.2.2⟩

/-- C7: on an Update decision only the `field_value` of the rows matching the
cell is overwritten — their `issue_key`, `field_id` and `field_name` are
unchanged, the store keeps its length, and every non-matching row is exactly
the row that was there before. -/
theorem update_overwrites_value_only (s : Store) (issue_key field_id : String)
    (v : Option String) (r : Row)
    (hf : s.find? (rowMatches issue_key field_id) = some r)
    (hne : r.field_value ≠ v) :
    (check_and_update_field s issue_key field_id v).2 = Decision.update ∧
    (check_and_update_field s issue_key field_id v).1.length = s.length ∧
    ∀ i (hi : i < s.length)
      (hi2 : i < (check_and_update_field s issue_key field_id v).1.length),
      ((check_and_update_field s issue_key field_id v).1[i].issue_key =
          s[i].issue_key ∧
        (check_and_update_field s issue_key field_id v).1[i].field_id =
          s[i].field_id ∧
        (check_and_update_field s issue_key field_id v).1[i].field_name =
          s[i].field_name) ∧
      (rowMatches issue_key field_id s[i] = false →
        (check_and_update_field s issue_key field_id v).1[i] = s[i]) ∧
      (rowMatches issue_key field_id s[i] = true →
        (check_and_update_field s issue_key field_id v).1[i].field_value = v) := by
  have hstore : (check_and_update_field s issue_key field_id v).1 =
      s.map (fun r2 => if rowMatches issue_key field_id r2 then
        { r2 with field_value := v } else r2) := by
    simp [check_and_update_field, hf, hne]
  have hdec : (check_and_update_field s issue_key field_id v).2 = Decision.update := by
    simp [check_and_update_field, hf, hne]
  refine ⟨hdec, by simp [hstore], ?_⟩
  intro i hi hi2
  have hget : (check_and_update_field s issue_key field_id v).1[i] =
      (if rowMatches issue_key field_id s[i] then
        { s[i] with field_value := v } else s[i]) := by
    simp only [hstore, List.getElem_map]
  by_cases hm : rowMatches issue_key field_id s[i] = true
  · rw [hget, if_pos hm]
    exact ⟨⟨rfl, rfl, rfl⟩,
      fun hcon => absurd hm (by simp [hcon]),
      fun _ => rfl⟩
  · have hm2 : rowMatches issue_key field_id s[i] = false :=
      Bool.eq_false_iff.2 hm
    rw [hget, if_neg (by simp [hm2])]
    exact ⟨⟨rfl, rfl, rfl⟩,
      fun _ => rfl,
      fun hcon => absurd hcon (by simp [hm2])⟩

/-- Witness for C7: updating cell `("K", "p")` in a two-row store flips only
that row's value; the second row is untouched. -/
theorem update_overwrites_value_only_witness :
    (check_and_update_field [⟨"K", "p", "mss_p", some "1"⟩, ⟨"K", "q", "mss_q", some "2"⟩]
      "K" "p" (some "3")).2 = Decision.update ∧
    (check_and_update_field [⟨"K", "p", "mss_p", some "1"⟩, ⟨"K", "q", "mss_q", some "2"⟩]
      "K" "p" (some "3")).1.length = 2 ∧
    (check_and_update_field [⟨"K", "p", "mss_p", some "1"⟩, ⟨"K", "q", "mss_q", some "2"⟩]
      "K" "p" (some "3")).1.get ⟨1, by decide⟩ = ⟨"K", "q", "mss_q", some "2"⟩ ∧
    ((check_and_update_field [⟨"K", "p", "mss_p", some "1"⟩, ⟨"K", "q", "mss_q", some "2"⟩]
      "K" "p" (some "3")).1.get ⟨0, by decide⟩).field_value = some "3" :=
  ⟨(update_overwrites_value_only _ "K" "p" (some "3") ⟨"K", "p", "mss_p", some "1"⟩
      (by decide) (by decide)).1,
   (update_overwrites_value_only _ "K" "p" (some "3") ⟨"K", "p", "mss_p", some "1"⟩
      (by decide) (by decide)).2.1,
   ((update_overwrites_value_only _ "K" "p" (some "3") ⟨"K", "p", "mss_p", some "1"⟩
      (by decide) (by decide)).2.2 1 (by decide) (by decide)).2.1 (by decide),
   ((update_overwrites_value_only _ "K" "p" (some "3") ⟨"K", "p", "mss_p", some "1"⟩
      (by decide) (by decide)).2.2 0 (by decide) (by decide)).2.2 (by decide)⟩

/-- C8: under the additive policy (`CREATE TABLE IF NOT EXISTS`), provisioning
is idempotent and never drops or modifies stored data: running it twice equals
running it once, an existing table is left exactly as it is, and an absent
table is created empty. -/
theorem create_jira_fields_table_idempotent (db : Option Store) :
    create_jira_fields_table (create_jira_fields_table db) =
      create_jira_fields_table db ∧
    (∀ s : Store, create_jira_fields_table (some s) = some s) ∧
    create_jira_fields_table none = some [] := by
  refine ⟨?_, fun s => rfl, rfl⟩
  cases db <;> rfl

end JiraFields3

/-- C3: flattening the tree `{"a": {"b": 1}, "c": [10, 20]}` yields exactly
the pairs `a_b` to 1, `c_0` to 10 and `c_1` to 20 — object children extend the
accumulated path with `_key` (no leading separator at the root) and array
children with the zero-based `_index`. -/
theorem flattenPairs_example :
    flattenPairs (.obj [("a", .obj [("b", .num 1)]), ("c", .arr [.num 10, .num 20])]) "" =
      [("a_b", some "1"), ("c_0", some "10"), ("c_1", some "20")] := by decide

/-- C9: when the root of the field tree is an array, the empty accumulated
path is extended with the separator and index, so every emitted path begins
with a leading separator; object keys at the root carry no leading
separator. -/
theorem root_array_paths_lead_separator :
    flattenPairs (.arr [.num 10, .num 20]) "" = [("_0", some "10"), ("_1", some "20")] ∧
    (∀ (items : List Json) (q : String) (v : Option String),
      (q, v) ∈ flattenPairs (.arr items) "" → ∃ r, q.data = '_' :: r) ∧
    flattenPairs (.obj [("a", .num 1)]) "" = [("a", some "1")] := by
  refine ⟨by decide, ?_, by decide⟩
  intro items q v h
  rcases flattenPairsArr_ext items "" 0 q v (by simpa [flattenPairs] using h) with ⟨r, hr⟩
  exact ⟨r, hr⟩

/-- Witness for C9: the first path of a concrete root-array flattening starts
with the separator. -/
theorem root_array_paths_lead_separator_witness :
    ∃ r, ("_0" : String).data = '_' :: r :=
  root_array_paths_lead_separator.2.1 [.num 10, .num 20] "_0" (some "10") (by decide)

/-- C4 (code bug): against a page source that returns zero records while
reporting a positive total, the pagination loop guard `start_at <
total_issues` holds after every number of iterations — `start_at` never
advances past the stale total, so the `while` loop of `fetch_all_issues`
never terminates, contrary to the required guard against stale or erroneous
counts. -/
theorem fetch_all_issues_stale_total_never_exits :
    ∀ n, (fetch_all_issues_iter stalePage n).start_at <
      (fetch_all_issues_iter stalePage n).total_issues := by
  have hstart : ∀ n, (fetch_all_issues_iter stalePage n).start_at = 0 := by
    intro n
    induction n with
    | zero => rfl
    | succ n ih =>
        simp only [fetch_all_issues_iter]
        split
        · simp [fetchStep, stalePage, ih]
        · exact ih
  have htotal : ∀ n, 0 < (fetch_all_issues_iter stalePage n).total_issues := by
    intro n
    induction n with
    | zero => decide
    | succ n ih =>
        simp only [fetch_all_issues_iter]
        split
        · simp [fetchStep, stalePage]
        · exact ih
  intro n
  have h1 := hstart n
  have h2 := htotal n
  omega

namespace JiraFields

/-- A leaf insert that hits an existing primary key retries exactly once, with
`field_id` suffixed by `_` and the counter passed to this call; the retried
row still derives its `field_name` from the un-suffixed path. -/
theorem leaf_retry (issue_key parent_key : String) (c : Nat) (d : Json) (s : Store)
    (hobj : ∀ kvs, d ≠ Json.obj kvs) (harr : ∀ l, d ≠ Json.arr l)
    (h1 : s.any (rowMatches issue_key parent_key) = true)
    (h2 : s.any (rowMatches issue_key (parent_key ++ "_" ++ toString c)) = false) :
    flatten_json_and_insert issue_key d parent_key c s =
      Except.ok (s ++ [{ issue_key := issue_key,
                         field_id := parent_key ++ "_" ++ toString c,
                         field_name := transform_field_name parent_key,
                         field_value := some (dumps d) }]) := by
  cases d with
  | obj kvs => exact absurd rfl (hobj kvs)
  | arr l => exact absurd rfl (harr l)
  | str s2 => simp [flatten_json_and_insert, insertRow, h1, h2]
  | num n => simp [flatten_json_and_insert, insertRow, h1, h2]
  | bool b => simp [flatten_json_and_insert, insertRow, h1, h2]
  | null => simp [flatten_json_and_insert, insertRow, h1, h2]

/-- When the retried key collides as well, the second UniqueViolation is not
caught: it propagates out of the leaf branch. -/
theorem leaf_second_collision (issue_key parent_key : String) (c : Nat) (d : Json)
    (s : Store)
    (hobj : ∀ kvs, d ≠ Json.obj kvs) (harr : ∀ l, d ≠ Json.arr l)
    (h1 : s.any (rowMatches issue_key parent_key) = true)
    (h2 : s.any (rowMatches issue_key (parent_key ++ "_" ++ toString c)) = true) :
    flatten_json_and_insert issue_key d parent_key c s = Except.error () := by
  cases d with
  | obj kvs => exact absurd rfl (hobj kvs)
  | arr l => exact absurd rfl (harr l)
  | str s2 => simp [flatten_json_and_insert, insertRow, h1, h2]
  | num n => simp [flatten_json_and_insert, insertRow, h1, h2]
  | bool b => simp [flatten_json_and_insert, insertRow, h1, h2]
  | null => simp [flatten_json_and_insert, insertRow, h1, h2]

/-- C10: in jira_fields.py's duplicate-path fallback the counter argument is
never propagated to recursive calls (dict and list recursion is independent of
it), so a leaf reached through recursion that hits a uniqueness violation is
always retried with suffix `_0` regardless of the counter passed in at the
top, and a second collision on the retried key is not caught and propagates as
an error. -/
theorem duplicate_fallback_counter_not_propagated (issue_key parent_key key : String)
    (c : Nat) (d : Json) (s : Store)
    (hobj : ∀ kvs, d ≠ Json.obj kvs) (harr : ∀ l, d ≠ Json.arr l) :
    (∀ (kvs : List (String × Json)) (c2 : Nat),
      flatten_json_and_insert issue_key (.obj kvs) parent_key c s =
        flatten_json_and_insert issue_key (.obj kvs) parent_key c2 s) ∧
    (∀ (items : List Json) (c2 : Nat),
      flatten_json_and_insert issue_key (.arr items) parent_key c s =
        flatten_json_and_insert issue_key (.arr items) parent_key c2 s) ∧
    (s.any (rowMatches issue_key parent_key) = true →
      s.any (rowMatches issue_key (parent_key ++ "_" ++ toString c)) = false →
      flatten_json_and_insert issue_key d parent_key c s =
        Except.ok (s ++ [{ issue_key := issue_key,
                           field_id := parent_key ++ "_" ++ toString c,
                           field_name := transform_field_name parent_key,
                           field_value := some (dumps d) }])) ∧
    (s.any (rowMatches issue_key parent_key) = true →
      s.any (rowMatches issue_key (parent_key ++ "_" ++ toString c)) = true →
      flatten_json_and_insert issue_key d parent_key c s = Except.error ()) ∧
    (s.any (rowMatches issue_key (joinKey parent_key key)) = true →
      s.any (rowMatches issue_key (joinKey parent_key key ++ "_" ++ toString 0)) = false →
      flatten_json_and_insert issue_key (.obj [(key, d)]) parent_key c s =
        Except.ok (s ++ [{ issue_key := issue_key,
                           field_id := joinKey parent_key key ++ "_" ++ toString 0,
                           field_name := transform_field_name (joinKey parent_key key),
                           field_value := some (dumps d) }])) := by
  refine ⟨fun kvs c2 => rfl, fun items c2 => rfl,
    leaf_retry issue_key parent_key c d s hobj harr,
    leaf_second_collision issue_key parent_key c d s hobj harr,
    ?_⟩
  intro h1 h2
  show objLoop issue_key [(key, d)] parent_key s = _
  rw [objLoop, leaf_retry issue_key (joinKey parent_key key) 0 d s hobj harr h1 h2]
  rfl

/-- Witness for C10: a top-level counter of 5 reaches the leaf directly and
retries at `a_5`, while the same collision reached through a dict child always
retries at `a_b_0` even with a top-level counter of 9; a store already holding
both `a` and `a_0` makes the retry fail uncaught. -/
theorem duplicate_fallback_counter_witness :
    flatten_json_and_insert "K" (.num 7) "a" 5 [⟨"K", "a", "mss_a", some "1"⟩] =
      Except.ok [⟨"K", "a", "mss_a", some "1"⟩, ⟨"K", "a_5", "mss_a", some "7"⟩] ∧
    flatten_json_and_insert "K" (.obj [("b", .num 7)]) "a" 9
        [⟨"K", "a_b", "mss_a_b", some "1"⟩] =
      Except.ok [⟨"K", "a_b", "mss_a_b", some "1"⟩, ⟨"K", "a_b_0", "mss_a_b", some "7"⟩] ∧
    flatten_json_and_insert "K" (.num 7) "a" 0
        [⟨"K", "a", "mss_a", some "1"⟩, ⟨"K", "a_0", "mss_a", some "2"⟩] =
      Except.error () :=
  ⟨(duplicate_fallback_counter_not_propagated "K" "a" "b" 5 (.num 7)
      [⟨"K", "a", "mss_a", some "1"⟩]
      (fun _ h => Json.noConfusion h) (fun _ h => Json.noConfusion h)).2.2.1
      (by decide) (by decide),
   (duplicate_fallback_counter_not_propagated "K" "a" "b" 9 (.num 7)
      [⟨"K", "a_b", "mss_a_b", some "1"⟩]
      (fun _ h => Json.noConfusion h) (fun _ h => Json.noConfusion h)).2.2.2.2
      (by decide) (by decide),
   (duplicate_fallback_counter_not_propagated "K" "a" "b" 0 (.num 7)
      [⟨"K", "a", "mss_a", some "1"⟩, ⟨"K", "a_0", "mss_a", some "2"⟩]
      (fun _ h => Json.noConfusion h) (fun _ h => Json.noConfusion h)).2.2.2.1
      (by decide) (by decide)⟩

end JiraFields

end JiraPull
